import Mathlib

/-!
Shallow embedding of the Gluon `Estimator` training orchestrator
(`python/mxnet/gluon/contrib/estimator/estimator.py`) and proofs about it.

Conventions:
* Tensors are opaque values (`Int`); the numeric kernels are external collaborators.
* Metric state is the log of `update` calls since the last `reset`; the readable
  value of a metric is a function of that log, so two metrics with equal logs have
  equal readable values.
* Collaborator code that lives outside `estimator.py` (the default event handler
  classes, `_suggest_metric_for_loss`, `split_and_load`, the metric classes) is
  modelled from the spec, one definition per missing piece, each marked
  `Modelled from the spec:` in its doc comment.
* Python exceptions become an explicit error type; Python truthiness of the
  `epochs` / `batches` arguments and of the context argument is modelled explicitly.
-/

namespace GluonEstimator

/-- Opaque tensor values; the numeric content is irrelevant to the orchestrator. -/
abbrev Tensor := Int

/-- Kind of a metric object. `lossKind` models `isinstance(metric, mxnet.metric.Loss)`;
`accKind` models accuracy-like metrics; `customKind` models arbitrary user metrics. -/
inductive MetricKind
  | lossKind
  | accKind
  | customKind (tag : Nat)
deriving DecidableEq, Repr

/-- Arguments of one `metric.update(...)` call as issued by `evaluate_batch`:
a loss metric is updated with a fixed first argument and the per-shard losses
(`metric.update(0, loss)`); any other metric with `metric.update(label, pred)`. -/
inductive UpdateArgs
  | lossUpdate (losses : List Tensor)
  | predUpdate (labels preds : List Tensor)
deriving DecidableEq, Repr

/-- Modelled from the spec: a metric is a named, resettable, stateful accumulator.
Its state is the list of `update` calls received since the last `reset`. -/
structure Metric where
  kind : MetricKind
  name : String
  updates : List UpdateArgs
deriving DecidableEq, Repr

/-- One `update` call appends to the state log. -/
def Metric.update (m : Metric) (a : UpdateArgs) : Metric :=
  { m with updates := m.updates ++ [a] }

/-- `reset` returns the metric to its zero state. -/
def Metric.reset (m : Metric) : Metric :=
  { m with updates := [] }

/-- The readable value of a metric is determined by its update log. -/
def Metric.value (m : Metric) : List UpdateArgs := m.updates

/-- The string method `name.rstrip('1234567890')` used on the loss name:
removes every trailing decimal digit. -/
def rstripDigits (s : String) : String :=
  String.mk ((s.data.reverse.dropWhile Char.isDigit).reverse)

/-- A `gluon.loss.Loss` collaborator: only its `name` attribute and (for the
metric suggestion) whether it is a classification loss are observable here. -/
structure GluonLoss where
  name : String
  isClassification : Bool
deriving DecidableEq, Repr

/-- Modelled from the spec: `_suggest_metric_for_loss` (defined in `utils.py`, which is
absent from the source tree) chooses an accuracy-like metric implied by the loss kind
when one can be inferred (classification losses) and nothing otherwise; it never
suggests a loss-kind metric. -/
def suggestMetricForLoss (l : GluonLoss) : Option Metric :=
  if l.isClassification then
    some { kind := MetricKind.accKind, name := "accuracy", updates := [] }
  else
    none

/-- `Estimator._add_default_training_metrics`: when the (already normalized) user
metric list is empty, takes the suggested metric (if any) and always appends a
running-average-loss metric named by the loss name with trailing digits stripped;
in every case each training metric name is then prefixed with `"training "`. -/
def addDefaultTrainingMetrics (loss : GluonLoss) (trainMetrics0 : List Metric) :
    List Metric :=
  let tms :=
    if trainMetrics0.isEmpty then
      (match suggestMetricForLoss loss with
        | some m => [m]
        | none => []) ++
      [{ kind := MetricKind.lossKind, name := rstripDigits loss.name, updates := [] }]
    else trainMetrics0
  tms.map (fun m => { m with name := "training " ++ m.name })

/-- `Estimator._add_validation_metrics`: deep-copies every training metric and
prefixes each copied name with `"validation "`. Deep copies are independent
objects, which value semantics renders exactly. -/
def addValidationMetrics (tms : List Metric) : List Metric :=
  tms.map (fun m => { m with name := "validation " ++ m.name })

/-- A compute context token: `mx.cpu(i)` or `mx.gpu(i)`. -/
inductive Ctx
  | cpu (id : Nat)
  | gpu (id : Nat)
deriving DecidableEq, Repr

/-- The check `str(ctx).startswith('cpu')` from `_check_context`: a cpu context
prints as `cpu(<id>)`, which starts with `"cpu"`; a gpu context prints as
`gpu(<id>)`, which does not. -/
def strStartsWithCpu : Ctx → Bool
  | Ctx.cpu _ => true
  | Ctx.gpu _ => false

/-- Whether a context is a cpu context. -/
def isCpuCtx : Ctx → Bool
  | Ctx.cpu _ => true
  | Ctx.gpu _ => false

/-- A context list of homogeneous kind: all cpu or all gpu. -/
def homogeneousCtxs (cs : List Ctx) : Bool :=
  cs.all isCpuCtx || cs.all (fun c => !isCpuCtx c)

/-- The `context` argument of the constructor, as discriminated by
`_check_context`: `None`, a single `Context`, a Python list (whose elements may
or may not be `Context` objects, `some` marking the ones that are), or any other
value (with its Python truthiness). -/
inductive CtxArg
  | noneArg
  | single (c : Ctx)
  | listArg (cs : List (Option Ctx))
  | other (truthy : Bool)
deriving DecidableEq, Repr

/-- Python truthiness of the `context` argument: `None` is falsy, a `Context`
object is truthy, a list is truthy when non-empty. -/
def CtxArg.isTruthy : CtxArg → Bool
  | CtxArg.noneArg => false
  | CtxArg.single _ => true
  | CtxArg.listArg cs => !cs.isEmpty
  | CtxArg.other t => t

/-- Errors raised by the estimator code. -/
inductive EstErr
  | valueError
  | assertionError
  | unboundLocalError
deriving DecidableEq, Repr

/-- `available_gpus = [gpu(i) for i in range(num_gpus())]`. -/
def availableGpus (numGpus : Nat) : List Ctx :=
  (List.range numGpus).map Ctx.gpu

/-- The per-context availability assertion of `_check_context`:
`ctx in available_gpus or str(ctx).startswith('cpu')`. -/
def ctxAvailable (numGpus : Nat) (c : Ctx) : Bool :=
  (availableGpus numGpus).contains c || strStartsWithCpu c

/-- `Estimator._check_context`. Returns the validated context list together with
a flag recording whether the multiple-gpus warning was emitted. -/
def checkContext (numGpus : Nat) (arg : CtxArg) : Except EstErr (List Ctx × Bool) :=
  if arg.isTruthy then
    match arg with
    | CtxArg.single c =>
        if ctxAvailable numGpus c then Except.ok ([c], false)
        else Except.error EstErr.assertionError
    | CtxArg.listArg cs =>
        if cs.all Option.isSome then
          let ctxs := cs.filterMap id
          if ctxs.all (ctxAvailable numGpus) then Except.ok (ctxs, false)
          else Except.error EstErr.assertionError
        else Except.error EstErr.valueError
    | CtxArg.noneArg => Except.error EstErr.valueError
    | CtxArg.other _ => Except.error EstErr.valueError
  else
    if numGpus > 0 then Except.ok ([Ctx.gpu 0], decide (numGpus > 1))
    else Except.ok ([Ctx.cpu 0], false)

/-- The estimator state relevant to the verified operations: the loss, the two
metric sets, the validated context list and the iteration counters set by `fit`.
The model, initializer and trainer collaborators are out of scope. -/
structure Estimator where
  loss : GluonLoss
  trainMetrics : List Metric
  valMetrics : List Metric
  context : List Ctx
  maxEpoch : Option Int
  maxBatch : Option Int
deriving DecidableEq, Repr

/-- `Estimator.__init__` restricted to the verified state: `_check_loss` (a
non-`Loss` argument, modelled as `none`, raises `ValueError`), metric
normalization (modelled from the spec: `_check_metrics` turns the argument into
a plain metric list), default training metrics, validation metrics, and
`_check_context`. -/
def mkEstimator (lossArg : Option GluonLoss) (userMetrics : List Metric)
    (numGpus : Nat) (ctxArg : CtxArg) : Except EstErr Estimator :=
  match lossArg with
  | none => Except.error EstErr.valueError
  | some loss =>
      let tms := addDefaultTrainingMetrics loss userMetrics
      let vms := addValidationMetrics tms
      match checkContext numGpus ctxArg with
      | Except.error e => Except.error e
      | Except.ok ctxsWarn =>
          Except.ok { loss := loss, trainMetrics := tms, valMetrics := vms,
                      context := ctxsWarn.1, maxEpoch := none, maxBatch := none }

/-- Mutation of the i-th training metric through its `update` method. -/
def Estimator.updateTrainMetricAt (est : Estimator) (i : Nat) (a : UpdateArgs) :
    Estimator :=
  { est with trainMetrics := est.trainMetrics.modify (fun m => m.update a) i }

/-- Mutation of the i-th validation metric through its `update` method. -/
def Estimator.updateValMetricAt (est : Estimator) (i : Nat) (a : UpdateArgs) :
    Estimator :=
  { est with valMetrics := est.valMetrics.modify (fun m => m.update a) i }

/-- The names of the loss-kind metrics in a metric list. -/
def lossMetricNames (tms : List Metric) : List String :=
  (tms.filter (fun m => decide (m.kind = MetricKind.lossKind))).map Metric.name

/-- An event handler as seen by the estimator: its class memberships (the four
`isinstance` checks of `_prepare_default_handlers`), its capability memberships
(the six `isinstance` checks of `_categorize_handlers`), its optional `priority`
attribute (`getattr(handler, 'priority', 0)`), the metric objects it references
(consumed by `_check_handler_metric_ref`), the configuration carried by a
stopping handler, whether a validation handler holds validation data, and a tag
distinguishing user-supplied handler objects. -/
structure Handler where
  isStoppingHandler : Bool
  isMetricHandler : Bool
  isValidationHandler : Bool
  isLoggingHandler : Bool
  priority : Option Int
  hasTrainBegin : Bool
  hasEpochBegin : Bool
  hasBatchBegin : Bool
  hasBatchEnd : Bool
  hasEpochEnd : Bool
  hasTrainEnd : Bool
  refTrainMetrics : List Metric
  refValMetrics : List Metric
  stopMaxEpoch : Option Int
  stopMaxBatch : Option Int
  boundValData : Bool
  tag : Nat
deriving DecidableEq, Repr

/-- Modelled from the spec: the default `StoppingHandler` of `event_handler.py`
(absent from the source tree), configured with the estimator epoch/batch limits;
it uses no metrics and raises its stop signal at batch end or epoch end. -/
def mkStoppingHandler (maxEpoch maxBatch : Option Int) : Handler :=
  { isStoppingHandler := true, isMetricHandler := false,
    isValidationHandler := false, isLoggingHandler := false,
    priority := none,
    hasTrainBegin := true, hasEpochBegin := false, hasBatchBegin := false,
    hasBatchEnd := true, hasEpochEnd := true, hasTrainEnd := false,
    refTrainMetrics := [], refValMetrics := [],
    stopMaxEpoch := maxEpoch, stopMaxBatch := maxBatch,
    boundValData := false, tag := 0 }

/-- Modelled from the spec: the default `MetricHandler` of `event_handler.py`
(absent from the source tree), bound to the training metrics. -/
def mkMetricHandler (trainMetrics : List Metric) : Handler :=
  { isStoppingHandler := false, isMetricHandler := true,
    isValidationHandler := false, isLoggingHandler := false,
    priority := none,
    hasTrainBegin := true, hasEpochBegin := true, hasBatchBegin := false,
    hasBatchEnd := true, hasEpochEnd := false, hasTrainEnd := false,
    refTrainMetrics := trainMetrics, refValMetrics := [],
    stopMaxEpoch := none, stopMaxBatch := none,
    boundValData := false, tag := 0 }

/-- Modelled from the spec: the default `ValidationHandler` of `event_handler.py`
(absent from the source tree), bound to the validation data, the evaluation
entry point and the validation metrics. -/
def mkValidationHandler (valMetrics : List Metric) : Handler :=
  { isStoppingHandler := false, isMetricHandler := false,
    isValidationHandler := true, isLoggingHandler := false,
    priority := none,
    hasTrainBegin := true, hasEpochBegin := false, hasBatchBegin := false,
    hasBatchEnd := true, hasEpochEnd := true, hasTrainEnd := false,
    refTrainMetrics := [], refValMetrics := valMetrics,
    stopMaxEpoch := none, stopMaxBatch := none,
    boundValData := true, tag := 0 }

/-- Modelled from the spec: the default `LoggingHandler` of `event_handler.py`
(absent from the source tree), bound to the training metric set and the
validation metric set chosen by `_prepare_default_handlers`. -/
def mkLoggingHandler (trainMetrics valMetrics : List Metric) : Handler :=
  { isStoppingHandler := false, isMetricHandler := false,
    isValidationHandler := false, isLoggingHandler := true,
    priority := none,
    hasTrainBegin := true, hasEpochBegin := true, hasBatchBegin := true,
    hasBatchEnd := true, hasEpochEnd := true, hasTrainEnd := true,
    refTrainMetrics := trainMetrics, refValMetrics := valMetrics,
    stopMaxEpoch := none, stopMaxBatch := none,
    boundValData := false, tag := 0 }

/-- `getattr(handler, 'priority', 0)`: the sort key of
`_prepare_default_handlers`. -/
def effectivePriority (h : Handler) : Int :=
  h.priority.getD 0

/-- Stable insertion of a handler into a priority-sorted handler list: the new
element is placed before the first element of strictly larger effective
priority, hence after every earlier element of equal priority. -/
def insertByPriority (x : Handler) : List Handler → List Handler
  | [] => [x]
  | y :: ys =>
    if effectivePriority x ≤ effectivePriority y then x :: y :: ys
    else y :: insertByPriority x ys

/-- The stable ascending sort `event_handlers.sort(key=...)` of
`_prepare_default_handlers`: Python list sorting is stable, and a stable
ascending sort is uniquely determined, so stable insertion sort renders it
exactly. -/
def sortByPriority : List Handler → List Handler
  | [] => []
  | x :: xs => insertByPriority x (sortByPriority xs)

/-- Modelled from the spec: `_check_handler_metric_ref` (defined in `utils.py`,
which is absent from the source tree) checks that every metric referenced by the
handler belongs to the known metric set of the estimator. -/
def knownMetricCheck (known : List Metric) (h : Handler) : Bool :=
  (h.refTrainMetrics ++ h.refValMetrics).all (fun m => known.contains m)

/-- The default-handler construction phase of `_prepare_default_handlers`:
always appends a stopping handler; appends a metric, validation and logging
handler only when the user list has none of that class (the validation handler
additionally only when validation data is present). The local variable
`val_metrics` of the Python function is bound only inside the
no-user-validation-handler branch; reading it unbound raises
`UnboundLocalError`. -/
def addedDefaultHandlers (est : Estimator) (hasValData : Bool)
    (userHandlers : List Handler) : Except EstErr (List Handler) :=
  let added1 := [mkStoppingHandler est.maxEpoch est.maxBatch]
  let added2 :=
    if !(userHandlers.any (fun h => h.isMetricHandler)) then
      added1 ++ [mkMetricHandler est.trainMetrics]
    else added1
  let valStep : List Handler × Option (List Metric) :=
    if !(userHandlers.any (fun h => h.isValidationHandler)) then
      if hasValData then
        (added2 ++ [mkValidationHandler est.valMetrics], some est.valMetrics)
      else (added2, some [])
    else (added2, none)
  if !(userHandlers.any (fun h => h.isLoggingHandler)) then
    match valStep.2 with
    | none => Except.error EstErr.unboundLocalError
    | some vm => Except.ok (valStep.1 ++ [mkLoggingHandler est.trainMetrics vm])
  else Except.ok valStep.1

/-- `Estimator._prepare_default_handlers`: builds the added defaults, computes
the mixing flag (user handlers present and defaults added) before extending,
extends the user list with the defaults, when mixing emits the warning (the
returned flag) and checks every handler against the known metric set, and
finally stable-sorts by ascending effective priority. -/
def prepareDefaultHandlers (est : Estimator) (hasValData : Bool)
    (userHandlers : List Handler) : Except EstErr (List Handler × Bool) :=
  match addedDefaultHandlers est hasValData userHandlers with
  | Except.error e => Except.error e
  | Except.ok added =>
      let mixing := !userHandlers.isEmpty && !added.isEmpty
      let combined := userHandlers ++ added
      if mixing then
        let known := est.trainMetrics ++ est.valMetrics
        if combined.all (knownMetricCheck known) then
          Except.ok (sortByPriority combined, true)
        else Except.error EstErr.valueError
      else Except.ok (sortByPriority combined, false)

/-- The per-capability accumulation loop of `_categorize_handlers`: one pass over
the handler list, appending each handler implementing the capability. The six
per-capability accumulations of the Python loop are independent, so the loop is
rendered as one such fold per capability. -/
def appendIf (p : Handler → Bool) (eventHandlers : List Handler) : List Handler :=
  eventHandlers.foldl (fun acc h => if p h then acc ++ [h] else acc) []

/-- `Estimator._categorize_handlers`: partitions the handler list into the six
per-phase lists by capability, preserving relative order. -/
def categorizeHandlers (eventHandlers : List Handler) :
    List Handler × List Handler × List Handler × List Handler × List Handler ×
      List Handler :=
  (appendIf (fun h => h.hasTrainBegin) eventHandlers,
   appendIf (fun h => h.hasEpochBegin) eventHandlers,
   appendIf (fun h => h.hasBatchBegin) eventHandlers,
   appendIf (fun h => h.hasBatchEnd) eventHandlers,
   appendIf (fun h => h.hasEpochEnd) eventHandlers,
   appendIf (fun h => h.hasTrainEnd) eventHandlers)

/-- The external collaborators used by `evaluate_batch`: the model callable, the
loss callable, and `split_and_load` (which shards a tensor across the context
list, one shard per context). -/
structure EvalEnv where
  net : Tensor → Tensor
  lossFn : Tensor → Tensor → Tensor
  splitLoad : Tensor → List Ctx → List Tensor

/-- A batch: the (data, label) pair yielded by a data loader. -/
structure Batch where
  data : Tensor
  label : Tensor
deriving DecidableEq, Repr

/-- `Estimator._get_data_and_label`: shards data and label across the context
list. -/
def getDataAndLabel (env : EvalEnv) (batch : Batch) (ctx : List Ctx) :
    List Tensor × List Tensor :=
  (env.splitLoad batch.data ctx, env.splitLoad batch.label ctx)

/-- `Estimator.evaluate_batch`: shards the batch, computes per-shard predictions
and losses, and updates every supplied metric (a loss-kind metric with the
per-shard losses, any other metric with labels and predictions). -/
def evaluateBatch (env : EvalEnv) (ctx : List Ctx) (valBatch : Batch)
    (valMetrics : List Metric) : List Metric :=
  let dl := getDataAndLabel env valBatch ctx
  let pred := dl.1.map env.net
  let loss := (pred.zip dl.2).map (fun pl => env.lossFn pl.1 pl.2)
  valMetrics.map (fun m =>
    if m.kind = MetricKind.lossKind then m.update (UpdateArgs.lossUpdate loss)
    else m.update (UpdateArgs.predUpdate dl.2 pred))

/-- `Estimator.evaluate`, in state-passing form: the returned metric list is the
metric state after the call (a raised error leaves every metric untouched).
When `val_data` is not a `DataLoader` it raises `ValueError`; otherwise it
resets every metric and runs `evaluate_batch` once per batch, in source order. -/
def evaluate (env : EvalEnv) (ctx : List Ctx) (isDataLoader : Bool)
    (valData : List Batch) (valMetrics : List Metric) :
    List Metric × Option EstErr :=
  if !isDataLoader then (valMetrics, some EstErr.valueError)
  else
    let ms := valMetrics.map Metric.reset
    (valData.foldl (fun acc b => evaluateBatch env ctx b acc) ms, none)

/-- The `update` arguments that `evaluate_batch` issues to a metric of the given
kind for one batch. -/
def batchUpdateArgs (env : EvalEnv) (ctx : List Ctx) (kind : MetricKind)
    (b : Batch) : UpdateArgs :=
  let dl := getDataAndLabel env b ctx
  let pred := dl.1.map env.net
  let loss := (pred.zip dl.2).map (fun pl => env.lossFn pl.1 pl.2)
  if kind = MetricKind.lossKind then UpdateArgs.lossUpdate loss
  else UpdateArgs.predUpdate dl.2 pred

/-- The dispatcher state of one `fit` call that the event trace depends on: the
sizes of the six categorized handler lists, the number of batches yielded by the
training data loader per epoch, and the boolean results returned by the
batch-end and epoch-end handler callbacks (indexed by epoch, batch and handler
position; handler bodies are external code). -/
structure LoopEnv where
  nTrainBegin : Nat
  nEpochBegin : Nat
  nBatchBegin : Nat
  nBatchEnd : Nat
  nEpochEnd : Nat
  nTrainEnd : Nat
  numBatches : Nat
  batchEndSig : Nat → Nat → Nat → Bool
  epochEndSig : Nat → Nat → Bool

/-- One observable dispatcher action of `fit`: a handler invocation of one of
the six lifecycle phases (with the position of the handler in its per-phase
list) or one `fit_batch` call, tagged with the epoch and batch indices. -/
inductive Ev
  | trainBegin (h : Nat)
  | epochBegin (e h : Nat)
  | batchBegin (e b h : Nat)
  | fitBatch (e b : Nat)
  | batchEnd (e b h : Nat)
  | epochEnd (e h : Nat)
  | trainEnd (h : Nat)
deriving DecidableEq, Repr

/-- The epoch an event belongs to, when any. -/
def Ev.epochOf : Ev → Option Nat
  | Ev.trainBegin _ => none
  | Ev.epochBegin e _ => some e
  | Ev.batchBegin e _ _ => some e
  | Ev.fitBatch e _ => some e
  | Ev.batchEnd e _ _ => some e
  | Ev.epochEnd e _ => some e
  | Ev.trainEnd _ => none

/-- The (epoch, batch) pair an event belongs to, when any. -/
def Ev.batchOf : Ev → Option (Nat × Nat)
  | Ev.batchBegin e b _ => some (e, b)
  | Ev.fitBatch e b => some (e, b)
  | Ev.batchEnd e b _ => some (e, b)
  | _ => none

/-- Whether an event is a train-end handler invocation. -/
def isTrainEndEv : Ev → Bool
  | Ev.trainEnd _ => true
  | _ => false

/-- Whether an event belongs to a later batch of the given epoch. -/
def isBatchEvAfter (e b : Nat) (ev : Ev) : Bool :=
  match ev.batchOf with
  | some eb => eb.1 == e && decide (b < eb.2)
  | none => false

/-- Whether an event belongs to an epoch after the given one. -/
def isEpochEvAfter (e : Nat) (ev : Ev) : Bool :=
  match ev.epochOf with
  | some e2 => decide (e < e2)
  | none => false

/-- The events of one batch iteration: every batch-begin handler in order, one
`fit_batch` call, every batch-end handler in order. -/
def batchPhaseEvs (env : LoopEnv) (e b : Nat) : List Ev :=
  (List.range env.nBatchBegin).map (fun h => Ev.batchBegin e b h)
    ++ [Ev.fitBatch e b]
    ++ (List.range env.nBatchEnd).map (fun h => Ev.batchEnd e b h)

/-- `any(batch_end_result)`: whether any batch-end handler of batch `b` of epoch
`e` signals stop. -/
def batchStop (env : LoopEnv) (e b : Nat) : Bool :=
  ((List.range env.nBatchEnd).map (env.batchEndSig e b)).any id

/-- The inner batch loop of `fit`, starting at batch `b` with `rem` batches
remaining in the data loader: each batch runs fully (all its batch-end handlers
are invoked and their results collected) and the loop breaks after the first
batch whose collected results contain a stop signal. -/
def runBatchesFrom (env : LoopEnv) (e b : Nat) : Nat → List Ev
  | 0 => []
  | rem + 1 =>
    if batchStop env e b then batchPhaseEvs env e b
    else batchPhaseEvs env e b ++ runBatchesFrom env e (b + 1) rem

/-- `any(epoch_end_result)`: whether any epoch-end handler of epoch `e` signals
stop. -/
def epochStop (env : LoopEnv) (e : Nat) : Bool :=
  ((List.range env.nEpochEnd).map (env.epochEndSig e)).any id

/-- The events of one epoch: every epoch-begin handler, the batch loop over the
whole data loader, then every epoch-end handler (invoked whether the batch loop
was exhausted or abandoned). -/
def epochEvs (env : LoopEnv) (e : Nat) : List Ev :=
  (List.range env.nEpochBegin).map (fun h => Ev.epochBegin e h)
    ++ runBatchesFrom env e 0 env.numBatches
    ++ (List.range env.nEpochEnd).map (fun h => Ev.epochEnd e h)

/-- The `while True` epoch loop of `fit`, with explicit fuel: the loop exits
only when some epoch-end handler signals stop, so a run that never stops within
the fuel yields `none` (the Python loop simply has not terminated yet). -/
def runEpochs (env : LoopEnv) : Nat → Nat → Option (List Ev)
  | _, 0 => none
  | e, fuel + 1 =>
    if epochStop env e then some (epochEvs env e)
    else (runEpochs env (e + 1) fuel).map (fun t => epochEvs env e ++ t)

/-- Python truthiness of the `epochs` / `batches` argument (`not x` on an
optional integer): `None` and `0` are falsy. -/
def pyFalsy : Option Int → Bool
  | none => true
  | some n => n == 0

/-- `Estimator.fit`: checks that the training data is a `DataLoader`, raises
`ValueError` when the truthiness of `epochs` equals that of `batches` (the
`(not epochs) == (not batches)` test), then stores the two counters on the
estimator and runs the dispatcher: every train-begin handler, the epoch loop,
then every train-end handler. The first component of the result is the
(max_epoch, max_batch) counter pair after the call, so an error raised by the
two initial checks leaves the counters at their incoming values and produces no
events. Handler preparation and categorization are modelled separately by
`prepareDefaultHandlers` and `categorizeHandlers`; here the categorized lists
enter through the sizes and callback results recorded in `env`. -/
def fitModel (env : LoopEnv) (isDataLoader : Bool) (epochs batches : Option Int)
    (counters : Option Int × Option Int) (fuel : Nat) :
    (Option Int × Option Int) × Except EstErr (Option (List Ev)) :=
  if !isDataLoader then (counters, Except.error EstErr.valueError)
  else if pyFalsy epochs == pyFalsy batches then
    (counters, Except.error EstErr.valueError)
  else
    ((epochs, batches),
      Except.ok ((runEpochs env 0 fuel).map (fun t =>
        (List.range env.nTrainBegin).map Ev.trainBegin
          ++ t
          ++ (List.range env.nTrainEnd).map Ev.trainEnd)))

/-! Helper lemmas. -/

theorem rstripDigits_append_digits (b s : String)
    (h : s.data.all Char.isDigit = true) :
    rstripDigits (b ++ s) = rstripDigits b := by
  unfold rstripDigits
  rw [String.data_append, List.reverse_append]
  have hs : s.data.reverse.dropWhile Char.isDigit = [] := by
    rw [List.dropWhile_eq_nil_iff]
    intro x hx
    exact List.all_eq_true.mp h x (List.mem_reverse.mp hx)
  rw [List.dropWhile_append, hs]
  simp

theorem lossMetricNames_default (l : GluonLoss) :
    lossMetricNames (addDefaultTrainingMetrics l []) =
      ["training " ++ rstripDigits l.name] := by
  by_cases hc : l.isClassification <;>
    simp [lossMetricNames, addDefaultTrainingMetrics, suggestMetricForLoss, hc]

theorem validation_training_append (b : String) :
    "validation " ++ ("training " ++ b) = "validation training " ++ b := by
  have h : "validation " ++ "training " = "validation training " := by decide
  rw [← String.append_assoc, h]

/-- C9: for every estimator constructed without explicit metrics, the training
metric set contains exactly one loss-derived (running-average-loss) metric,
named by the loss name with all trailing decimal digits stripped (and the
`"training "` name marker applied as to every training metric), so two losses
of the same kind differing only in a trailing numeric suffix yield the same
metric name. -/
theorem default_metrics_single_loss_metric (l : GluonLoss) :
    (addDefaultTrainingMetrics l []).countP
        (fun m => decide (m.kind = MetricKind.lossKind)) = 1
    ∧ lossMetricNames (addDefaultTrainingMetrics l []) =
        ["training " ++ rstripDigits l.name]
    ∧ ∀ (l2 : GluonLoss) (base s1 s2 : String),
        l.name = base ++ s1 → l2.name = base ++ s2 →
        s1.data.all Char.isDigit = true → s2.data.all Char.isDigit = true →
        lossMetricNames (addDefaultTrainingMetrics l []) =
          lossMetricNames (addDefaultTrainingMetrics l2 []) := by
  refine ⟨?_, lossMetricNames_default l, ?_⟩
  · by_cases hc : l.isClassification <;>
      simp [addDefaultTrainingMetrics, suggestMetricForLoss, hc]
  · intro l2 base s1 s2 h1 h2 hd1 hd2
    rw [lossMetricNames_default l, lossMetricNames_default l2, h1, h2,
      rstripDigits_append_digits base s1 hd1,
      rstripDigits_append_digits base s2 hd2]

/-- C9 witness: a concrete instantiation of the suffix-collapse part. -/
theorem default_metrics_single_loss_metric_witness :
    "l2loss12".data.all Char.isDigit = false
    ∧ lossMetricNames
        (addDefaultTrainingMetrics { name := "l2loss12", isClassification := false } []) =
      lossMetricNames
        (addDefaultTrainingMetrics { name := "l2loss3", isClassification := false } []) :=
  ⟨by decide,
    (default_metrics_single_loss_metric
        { name := "l2loss12", isClassification := false }).2.2
      { name := "l2loss3", isClassification := false } "l2loss" "12" "3"
      rfl rfl (by decide) (by decide)⟩

/-- Shape of a successfully constructed estimator. -/
theorem mkEstimator_ok (lossArg : Option GluonLoss) (userMetrics : List Metric)
    (numGpus : Nat) (ctxArg : CtxArg) (est : Estimator)
    (h : mkEstimator lossArg userMetrics numGpus ctxArg = Except.ok est) :
    ∃ loss ctxs warn, lossArg = some loss
      ∧ checkContext numGpus ctxArg = Except.ok (ctxs, warn)
      ∧ est = { loss := loss,
                trainMetrics := addDefaultTrainingMetrics loss userMetrics,
                valMetrics :=
                  addValidationMetrics (addDefaultTrainingMetrics loss userMetrics),
                context := ctxs, maxEpoch := none, maxBatch := none } := by
  cases lossArg with
  | none => simp [mkEstimator] at h
  | some loss =>
      cases hcc : checkContext numGpus ctxArg with
      | error e => simp [mkEstimator, hcc] at h
      | ok cw =>
          refine ⟨loss, cw.1, cw.2, rfl, by simp [hcc], ?_⟩
          simp [mkEstimator, hcc] at h
          exact h.symm

/-- C10: in every successfully constructed estimator, every training metric name
is its base name with `"training "` prepended, and the corresponding validation
metric name is `"validation "` prepended to the already-prefixed training name,
hence of the form `"validation training <base>"`. -/
theorem metric_name_double_prefixing (lossArg : Option GluonLoss)
    (userMetrics : List Metric) (numGpus : Nat) (ctxArg : CtxArg)
    (est : Estimator)
    (h : mkEstimator lossArg userMetrics numGpus ctxArg = Except.ok est) :
    ∃ bases : List String,
      est.trainMetrics.map Metric.name = bases.map (fun b => "training " ++ b)
      ∧ est.valMetrics.map Metric.name =
          bases.map (fun b => "validation training " ++ b) := by
  obtain ⟨loss, ctxs, warn, -, -, rfl⟩ :=
    mkEstimator_ok lossArg userMetrics numGpus ctxArg est h
  refine ⟨((if userMetrics.isEmpty then
      (match suggestMetricForLoss loss with
        | some m => [m]
        | none => []) ++
      [{ kind := MetricKind.lossKind, name := rstripDigits loss.name,
         updates := [] }]
    else userMetrics)).map Metric.name, ?_, ?_⟩
  · simp [addDefaultTrainingMetrics, List.map_map]
  · simp [addDefaultTrainingMetrics, addValidationMetrics, List.map_map]
    intro a _
    exact validation_training_append a.name

/-- C10 witness: a concrete constructed estimator instantiating the name shape. -/
theorem metric_name_double_prefixing_witness :
    ∃ bases : List String,
      (Estimator.trainMetrics
          { loss := { name := "loss0", isClassification := false },
            trainMetrics :=
              addDefaultTrainingMetrics
                { name := "loss0", isClassification := false } [],
            valMetrics :=
              addValidationMetrics
                (addDefaultTrainingMetrics
                  { name := "loss0", isClassification := false } []),
            context := [Ctx.cpu 0], maxEpoch := none, maxBatch := none }).map
          Metric.name = bases.map (fun b => "training " ++ b)
      ∧ (Estimator.valMetrics
          { loss := { name := "loss0", isClassification := false },
            trainMetrics :=
              addDefaultTrainingMetrics
                { name := "loss0", isClassification := false } [],
            valMetrics :=
              addValidationMetrics
                (addDefaultTrainingMetrics
                  { name := "loss0", isClassification := false } []),
            context := [Ctx.cpu 0], maxEpoch := none, maxBatch := none }).map
          Metric.name = bases.map (fun b => "validation training " ++ b) :=
  metric_name_double_prefixing (some { name := "loss0", isClassification := false })
    [] 0 CtxArg.noneArg _ rfl

/-- C7: in every successfully constructed estimator the validation metric set
has the same length as the training metric set, element-wise the same metric
kinds, and the two sets are independent instances: an `update` on a metric of
one set leaves the readable value of every metric of the other set unchanged. -/
theorem val_metrics_mirror_independent (lossArg : Option GluonLoss)
    (userMetrics : List Metric) (numGpus : Nat) (ctxArg : CtxArg)
    (est : Estimator)
    (h : mkEstimator lossArg userMetrics numGpus ctxArg = Except.ok est) :
    est.valMetrics.length = est.trainMetrics.length
    ∧ (∀ i (h1 : i < est.valMetrics.length) (h2 : i < est.trainMetrics.length),
        (est.valMetrics[i]).kind = (est.trainMetrics[i]).kind)
    ∧ (∀ i a, (est.updateTrainMetricAt i a).valMetrics.map Metric.value =
        est.valMetrics.map Metric.value)
    ∧ (∀ i a, (est.updateValMetricAt i a).trainMetrics.map Metric.value =
        est.trainMetrics.map Metric.value) := by
  obtain ⟨loss, ctxs, warn, -, -, rfl⟩ :=
    mkEstimator_ok lossArg userMetrics numGpus ctxArg est h
  refine ⟨by simp [addValidationMetrics], ?_, fun i a => rfl, fun i a => rfl⟩
  intro i h1 h2
  simp [addValidationMetrics]

/-- C7 witness: the concrete estimator with one default metric. -/
theorem val_metrics_mirror_independent_witness :
    (Estimator.valMetrics
        { loss := { name := "loss0", isClassification := false },
          trainMetrics :=
            addDefaultTrainingMetrics
              { name := "loss0", isClassification := false } [],
          valMetrics :=
            addValidationMetrics
              (addDefaultTrainingMetrics
                { name := "loss0", isClassification := false } []),
          context := [Ctx.cpu 0], maxEpoch := none, maxBatch := none }).length =
      (Estimator.trainMetrics
        { loss := { name := "loss0", isClassification := false },
          trainMetrics :=
            addDefaultTrainingMetrics
              { name := "loss0", isClassification := false } [],
          valMetrics :=
            addValidationMetrics
              (addDefaultTrainingMetrics
                { name := "loss0", isClassification := false } []),
          context := [Ctx.cpu 0], maxEpoch := none, maxBatch := none }).length :=
  (val_metrics_mirror_independent
    (some { name := "loss0", isClassification := false }) [] 0 CtxArg.noneArg _ rfl).1

/-- One `evaluate_batch` call updates every metric with the arguments determined
by its kind. -/
theorem evaluateBatch_eq_map (env : EvalEnv) (ctx : List Ctx) (b : Batch)
    (ms : List Metric) :
    evaluateBatch env ctx b ms =
      ms.map (fun m => m.update (batchUpdateArgs env ctx m.kind b)) := by
  unfold evaluateBatch batchUpdateArgs
  apply List.map_congr_left
  intro m _
  by_cases h : m.kind = MetricKind.lossKind <;> simp [h]

/-- The batch loop of `evaluate` appends, to every metric state, one update per
batch in source order. -/
theorem foldl_evaluateBatch (env : EvalEnv) (ctx : List Ctx) :
    ∀ (bs : List Batch) (ms : List Metric),
      bs.foldl (fun acc b => evaluateBatch env ctx b acc) ms =
        ms.map (fun m =>
          { m with updates := m.updates ++ bs.map (batchUpdateArgs env ctx m.kind) })
  | [], ms => by simp
  | b :: bs, ms => by
    rw [List.foldl_cons, evaluateBatch_eq_map, foldl_evaluateBatch env ctx bs,
      List.map_map]
    apply List.map_congr_left
    intro m _
    simp [Metric.update, Function.comp]

/-- C6: `evaluate` on a non-`DataLoader` raises `ValueError` with every metric
state unchanged; on a `DataLoader` it first resets every metric to zero state
and then processes each batch exactly once, in source order: each final metric
state is precisely the per-batch update sequence over the yielded batches. -/
theorem evaluate_resets_then_processes_in_order (env : EvalEnv) (ctx : List Ctx)
    (valData : List Batch) (vms : List Metric) :
    evaluate env ctx false valData vms = (vms, some EstErr.valueError)
    ∧ evaluate env ctx true valData vms =
        (vms.map (fun m =>
          { m with updates := valData.map (batchUpdateArgs env ctx m.kind) }), none) := by
  refine ⟨rfl, ?_⟩
  unfold evaluate
  rw [if_neg (by simp)]
  show (valData.foldl (fun acc b => evaluateBatch env ctx b acc)
          (vms.map Metric.reset), none) = _
  rw [foldl_evaluateBatch, List.map_map]
  rfl

/-- C8 counterexample: a user-supplied list mixing a cpu and a gpu context
passes `_check_context` unchanged, so the stored context list is not
homogeneous in kind; moreover a falsy non-context argument (such as the integer
`0`) is routed to the default branch instead of raising a configuration
error. -/
theorem check_context_counterexample :
    checkContext 1 (CtxArg.listArg [some (Ctx.cpu 0), some (Ctx.gpu 0)]) =
      Except.ok ([Ctx.cpu 0, Ctx.gpu 0], false)
    ∧ homogeneousCtxs [Ctx.cpu 0, Ctx.gpu 0] = false
    ∧ checkContext 0 (CtxArg.other false) = Except.ok ([Ctx.cpu 0], false) := by
  refine ⟨rfl, rfl, rfl⟩

/-- A list whose elements are all `some` has a non-empty `filterMap id` when it
is non-empty. -/
theorem filterMap_id_ne_nil (cs : List (Option Ctx)) (hne : cs ≠ [])
    (hall : cs.all Option.isSome = true) : cs.filterMap id ≠ [] := by
  cases cs with
  | nil => exact absurd rfl hne
  | cons c cs =>
      cases c with
      | none => simp at hall
      | some x => simp

/-- C8 amended: every successfully stored context list is non-empty and every
element passed the availability assertion (cpu contexts always pass; gpu
contexts must be among the detected gpus); a falsy context argument yields
exactly one default gpu (with the warning flag exactly when more than one gpu
is available) when gpus exist, else exactly one cpu; a truthy argument that is
not a context nor a list raises `ValueError`, as does a truthy list containing
a non-context element; a list of contexts containing an unavailable device
raises an assertion error. Homogeneity of kind is not guaranteed for
user-supplied lists. -/
theorem check_context_amended (numGpus : Nat) (arg : CtxArg) :
    (∀ ctxs warn, checkContext numGpus arg = Except.ok (ctxs, warn) →
      ctxs ≠ []
      ∧ ctxs.all (ctxAvailable numGpus) = true
      ∧ (arg.isTruthy = false →
          ctxs = (if numGpus > 0 then [Ctx.gpu 0] else [Ctx.cpu 0])
          ∧ warn = decide (numGpus > 1)))
    ∧ (arg = CtxArg.other true →
        checkContext numGpus arg = Except.error EstErr.valueError)
    ∧ (∀ cs, arg = CtxArg.listArg cs → cs ≠ [] →
        cs.all Option.isSome = false →
        checkContext numGpus arg = Except.error EstErr.valueError)
    ∧ (∀ cs, arg = CtxArg.listArg cs → cs ≠ [] →
        cs.all Option.isSome = true →
        (cs.filterMap id).all (ctxAvailable numGpus) = false →
        checkContext numGpus arg = Except.error EstErr.assertionError) := by
  refine ⟨?_, ?_, ?_, ?_⟩
  · intro ctxs warn h
    cases harg : arg with
    | noneArg =>
        subst harg
        by_cases hg : numGpus > 0
        · have h1 : numGpus > 0 := hg
          simp [checkContext, CtxArg.isTruthy, hg] at h
          refine ⟨by simp [h.1.symm], ?_, ?_⟩
          · rw [← h.1]
            simp [ctxAvailable, availableGpus]
            exact Or.inl hg
          · intro _
            simp [hg, ← h.1, ← h.2]
        · simp [checkContext, CtxArg.isTruthy, hg] at h
          refine ⟨by simp [h.1.symm], ?_, ?_⟩
          · rw [← h.1]
            simp [ctxAvailable, strStartsWithCpu]
          · intro _
            have hg0 : numGpus = 0 := by omega
            simp [hg, ← h.1, ← h.2, hg0]
    | single c =>
        subst harg
        by_cases hc : ctxAvailable numGpus c
        · simp [checkContext, CtxArg.isTruthy, hc] at h
          refine ⟨by simp [h.1.symm], ?_, ?_⟩
          · rw [← h.1]
            simp [hc]
          · intro hf
            simp [CtxArg.isTruthy] at hf
        · simp [checkContext, CtxArg.isTruthy, hc] at h
    | listArg cs =>
        subst harg
        by_cases hne : cs.isEmpty
        · have hcs : cs = [] := by
            cases cs with
            | nil => rfl
            | cons a l => simp [List.isEmpty] at hne
          subst hcs
          by_cases hg : numGpus > 0
          · simp [checkContext, CtxArg.isTruthy, hg] at h
            refine ⟨by simp [h.1.symm], ?_, ?_⟩
            · rw [← h.1]
              simp [ctxAvailable, availableGpus]
              exact Or.inl hg
            · intro _
              simp [hg, ← h.1, ← h.2]
          · simp [checkContext, CtxArg.isTruthy, hg] at h
            refine ⟨by simp [h.1.symm], ?_, ?_⟩
            · rw [← h.1]
              simp [ctxAvailable, strStartsWithCpu]
            · intro _
              have hg0 : numGpus = 0 := by omega
              simp [hg, ← h.1, ← h.2, hg0]
        · by_cases hsome : cs.all Option.isSome
          · by_cases hav : (cs.filterMap id).all (ctxAvailable numGpus)
            · simp [checkContext, CtxArg.isTruthy, hne, hsome, hav] at h
              refine ⟨?_, ?_, ?_⟩
              · rw [← h.1]
                apply filterMap_id_ne_nil cs ?_ hsome
                cases cs with
                | nil => simp [List.isEmpty] at hne
                | cons a l => simp
              · rw [← h.1]
                exact hav
              · intro hf
                simp [CtxArg.isTruthy] at hf
                cases cs with
                | nil => simp [List.isEmpty] at hne
                | cons a l => simp at hf
            · simp [checkContext, CtxArg.isTruthy, hne, hsome, hav] at h
          · simp [checkContext, CtxArg.isTruthy, hne, hsome] at h
    | other t =>
        subst harg
        cases t with
        | true => simp [checkContext, CtxArg.isTruthy] at h
        | false =>
            by_cases hg : numGpus > 0
            · simp [checkContext, CtxArg.isTruthy, hg] at h
              refine ⟨by simp [h.1.symm], ?_, ?_⟩
              · rw [← h.1]
                simp [ctxAvailable, availableGpus]
                exact Or.inl hg
              · intro _
                simp [hg, ← h.1, ← h.2]
            · simp [checkContext, CtxArg.isTruthy, hg] at h
              refine ⟨by simp [h.1.symm], ?_, ?_⟩
              · rw [← h.1]
                simp [ctxAvailable, strStartsWithCpu]
              · intro _
                have hg0 : numGpus = 0 := by omega
                simp [hg, ← h.1, ← h.2, hg0]
  · intro harg
    subst harg
    rfl
  · intro cs harg hne hsome
    subst harg
    have hne2 : cs.isEmpty = false := by
      cases cs with
      | nil => exact absurd rfl hne
      | cons a l => rfl
    simp [checkContext, CtxArg.isTruthy, hne2, hsome]
  · intro cs harg hne hsome hav
    subst harg
    have hne2 : cs.isEmpty = false := by
      cases cs with
      | nil => exact absurd rfl hne
      | cons a l => rfl
    simp [checkContext, CtxArg.isTruthy, hne2, hsome, hav]

/-- C8 amended witness: the default-context branch with two gpus available. -/
theorem check_context_amended_witness :
    [Ctx.gpu 0] ≠ []
    ∧ [Ctx.gpu 0].all (ctxAvailable 2) = true
    ∧ ((CtxArg.noneArg).isTruthy = false →
        [Ctx.gpu 0] = (if 2 > 0 then [Ctx.gpu 0] else [Ctx.cpu 0])
        ∧ true = decide (2 > 1)) :=
  (check_context_amended 2 CtxArg.noneArg).1 [Ctx.gpu 0] true rfl

/-- Concrete dispatcher environment used by the iteration-mode theorems. -/
def envC1 : LoopEnv :=
  { nTrainBegin := 1, nEpochBegin := 1, nBatchBegin := 1,
    nBatchEnd := 1, nEpochEnd := 1, nTrainEnd := 1, numBatches := 0,
    batchEndSig := fun _ _ _ => false,
    epochEndSig := fun _ _ => true }

/-- C1 counterexample: with `epochs=0` (given, but falsy) and `batches=None`
exactly one of the two arguments is given, yet `fit` raises `ValueError`; with
`epochs=0` and `batches=5` both are given, yet no error is raised and the
counters are set to the given values. -/
theorem fit_mode_check_counterexample :
    fitModel envC1 true (some 0) none (none, none) 3 =
      ((none, none), Except.error EstErr.valueError)
    ∧ (fitModel envC1 true (some 0) (some 5) (none, none) 3).1 = (some 0, some 5)
    ∧ ∃ t, (fitModel envC1 true (some 0) (some 5) (none, none) 3).2 = Except.ok t :=
  ⟨rfl, rfl, _, rfl⟩

/-- C1 amended: `fit` raises `ValueError`, before any batch executes and with
the `max_epoch` / `max_batch` counters left at their incoming values, exactly
when the Python truthiness of `epochs` equals that of `batches` (both truthy or
both falsy, where `None` and `0` are falsy); when exactly one of the two is
truthy no such error is raised and the counters are set to the given values. -/
theorem fit_mode_check_amended (env : LoopEnv) (epochs batches : Option Int)
    (counters : Option Int × Option Int) (fuel : Nat) :
    (pyFalsy epochs = pyFalsy batches →
      fitModel env true epochs batches counters fuel =
        (counters, Except.error EstErr.valueError))
    ∧ (pyFalsy epochs ≠ pyFalsy batches →
      (fitModel env true epochs batches counters fuel).1 = (epochs, batches)
      ∧ ∃ t, (fitModel env true epochs batches counters fuel).2 = Except.ok t) := by
  constructor
  · intro h
    simp [fitModel, h]
  · intro h
    have hb : (pyFalsy epochs == pyFalsy batches) = false := by
      cases h1 : pyFalsy epochs <;> cases h2 : pyFalsy batches <;> simp_all
    refine ⟨by simp [fitModel, hb], ?_⟩
    refine ⟨(runEpochs env 0 fuel).map (fun t =>
      (List.range env.nTrainBegin).map Ev.trainBegin ++ t
        ++ (List.range env.nTrainEnd).map Ev.trainEnd), ?_⟩
    simp [fitModel, hb]

/-- C1 amended witness: `epochs=2`, `batches=None`. -/
theorem fit_mode_check_amended_witness :
    (fitModel envC1 true (some 2) none (none, none) 3).1 = (some 2, none)
    ∧ ∃ t, (fitModel envC1 true (some 2) none (none, none) 3).2 = Except.ok t :=
  (fit_mode_check_amended envC1 (some 2) none (none, none) 3).2 (by decide)

/-- Concrete estimator used by the handler-deduplication theorems. -/
def estC3 : Estimator :=
  { loss := { name := "l0", isClassification := false },
    trainMetrics := [], valMetrics := [],
    context := [Ctx.cpu 0], maxEpoch := none, maxBatch := none }

/-- A user-supplied stopping handler (an instance of the stopping class handed
in by the caller, tagged 7 to distinguish it from the auto-injected one). -/
def userStoppingHandlerC3 : Handler := { mkStoppingHandler none none with tag := 7 }

/-- C3 counterexample: a stopping handler is always auto-injected, even when the
user already supplied one, so the final prepared list contains two stopping
handlers, one of them user-supplied (tag 7): the final list does contain a
user-supplied and an auto-injected handler of the same category. -/
theorem default_handler_dedup_counterexample :
    (prepareDefaultHandlers estC3 false [userStoppingHandlerC3]).map
        (fun r => (r.1.countP (fun x => x.isStoppingHandler),
          r.1.countP (fun x => x.isStoppingHandler && decide (x.tag = 7)))) =
      Except.ok (2, 1) := rfl

/-- C3 amended: the handler-preparation step adds at most one default handler
per category; for the metric, validation and logging categories a default is
added exactly when the user list contains no handler of that category (the
validation default additionally requires validation data), so for those three
categories the final list never mixes a user-supplied and an auto-injected
handler; a stopping handler, however, is always added, regardless of the user
list. -/
theorem default_handler_dedup_amended (est : Estimator) (hasValData : Bool)
    (userHandlers added : List Handler)
    (h : addedDefaultHandlers est hasValData userHandlers = Except.ok added) :
    added.countP (fun x => x.isStoppingHandler) = 1
    ∧ added.countP (fun x => x.isMetricHandler) =
        (if userHandlers.any (fun x => x.isMetricHandler) then 0 else 1)
    ∧ added.countP (fun x => x.isValidationHandler) =
        (if userHandlers.any (fun x => x.isValidationHandler) then 0
         else if hasValData then 1 else 0)
    ∧ added.countP (fun x => x.isLoggingHandler) =
        (if userHandlers.any (fun x => x.isLoggingHandler) then 0 else 1) := by
  by_cases hM : userHandlers.any (fun x => x.isMetricHandler) <;>
  by_cases hV : userHandlers.any (fun x => x.isValidationHandler) <;>
  by_cases hL : userHandlers.any (fun x => x.isLoggingHandler) <;>
  cases hasValData <;>
  simp [addedDefaultHandlers, hM, hV, hL, mkStoppingHandler, mkMetricHandler,
    mkValidationHandler, mkLoggingHandler] at h <;>
  simp [← h, hM, hV, hL, mkStoppingHandler, mkMetricHandler,
    mkValidationHandler, mkLoggingHandler]

/-- C3 amended witness: empty user handler list, no validation data. -/
theorem default_handler_dedup_amended_witness :
    ([mkStoppingHandler none none, mkMetricHandler [],
        mkLoggingHandler [] []].countP (fun x => x.isStoppingHandler) = 1)
    ∧ ([mkStoppingHandler none none, mkMetricHandler [],
        mkLoggingHandler [] []].countP (fun x => x.isMetricHandler) = 1)
    ∧ ([mkStoppingHandler none none, mkMetricHandler [],
        mkLoggingHandler [] []].countP (fun x => x.isValidationHandler) = 0)
    ∧ ([mkStoppingHandler none none, mkMetricHandler [],
        mkLoggingHandler [] []].countP (fun x => x.isLoggingHandler) = 1) :=
  default_handler_dedup_amended estC3 false []
    [mkStoppingHandler none none, mkMetricHandler [], mkLoggingHandler [] []] rfl

/-- Concrete estimator used by the unbound-local theorem. -/
def estC4 : Estimator :=
  { loss := { name := "l0", isClassification := false },
    trainMetrics :=
      addDefaultTrainingMetrics { name := "l0", isClassification := false } [],
    valMetrics :=
      addValidationMetrics
        (addDefaultTrainingMetrics { name := "l0", isClassification := false } []),
    context := [Ctx.cpu 0], maxEpoch := none, maxBatch := none }

/-- A user-supplied validation handler. -/
def userValidationHandlerC4 : Handler := { mkValidationHandler [] with tag := 7 }

/-- C4 failing input: when the user handler list contains a validation handler
but no logging handler, the `val_metrics` local of `_prepare_default_handlers`
is never bound, so constructing the default logging handler raises
`UnboundLocalError` instead of completing, with or without validation data. -/
theorem prepare_handlers_unbound_local :
    prepareDefaultHandlers estC4 true [userValidationHandlerC4] =
      Except.error EstErr.unboundLocalError
    ∧ prepareDefaultHandlers estC4 false [userValidationHandlerC4] =
        Except.error EstErr.unboundLocalError :=
  ⟨rfl, rfl⟩

/-! Stable-sort lemmas for `sortByPriority`. -/

theorem mem_insertByPriority {a x : Handler} {l : List Handler} :
    a ∈ insertByPriority x l ↔ a = x ∨ a ∈ l := by
  induction l with
  | nil => simp [insertByPriority]
  | cons y ys ih =>
      by_cases h : effectivePriority x ≤ effectivePriority y
      · simp [insertByPriority, h]
      · simp [insertByPriority, h, ih]
        tauto

theorem pairwise_insertByPriority {x : Handler} {l : List Handler}
    (hl : l.Pairwise (fun a b => effectivePriority a ≤ effectivePriority b)) :
    (insertByPriority x l).Pairwise
      (fun a b => effectivePriority a ≤ effectivePriority b) := by
  induction l with
  | nil => simp [insertByPriority]
  | cons y ys ih =>
      rcases List.pairwise_cons.mp hl with ⟨hy, hys⟩
      by_cases h : effectivePriority x ≤ effectivePriority y
      · rw [insertByPriority, if_pos h]
        refine List.pairwise_cons.mpr ⟨?_, hl⟩
        intro b hb
        rcases List.mem_cons.mp hb with hb | hb
        · subst hb
          exact h
        · exact le_trans h (hy b hb)
      · rw [insertByPriority, if_neg h]
        refine List.pairwise_cons.mpr ⟨?_, ih hys⟩
        intro b hb
        rcases mem_insertByPriority.mp hb with rfl | hb
        · omega
        · exact hy b hb

theorem sortByPriority_pairwise (l : List Handler) :
    (sortByPriority l).Pairwise
      (fun a b => effectivePriority a ≤ effectivePriority b) := by
  induction l with
  | nil => simp [sortByPriority]
  | cons x xs ih => exact pairwise_insertByPriority ih

theorem filter_insertByPriority (x : Handler) (l : List Handler) (p : Int) :
    (insertByPriority x l).filter (fun a => decide (effectivePriority a = p)) =
      (x :: l).filter (fun a => decide (effectivePriority a = p)) := by
  induction l with
  | nil => rfl
  | cons y ys ih =>
      by_cases h : effectivePriority x ≤ effectivePriority y
      · rw [insertByPriority, if_pos h]
      · rw [insertByPriority, if_neg h]
        by_cases hx : effectivePriority x = p
        · have hy : ¬ effectivePriority y = p := by omega
          simp only [List.filter_cons] at ih ⊢
          simp [hx, hy] at ih ⊢
          exact ih
        · by_cases hy : effectivePriority y = p <;>
            simp only [List.filter_cons] at ih ⊢ <;>
            simp [hx, hy] at ih ⊢ <;> exact ih

theorem filter_sortByPriority (l : List Handler) (p : Int) :
    (sortByPriority l).filter (fun a => decide (effectivePriority a = p)) =
      l.filter (fun a => decide (effectivePriority a = p)) := by
  induction l with
  | nil => rfl
  | cons x xs ih =>
      rw [sortByPriority, filter_insertByPriority, List.filter_cons,
        List.filter_cons, ih]

theorem appendIf_eq_filter (p : Handler → Bool) (l : List Handler) :
    appendIf p l = l.filter p := by
  suffices hgen : ∀ acc : List Handler,
      l.foldl (fun a x => if p x then a ++ [x] else a) acc = acc ++ l.filter p by
    simpa [appendIf] using hgen []
  induction l with
  | nil => simp
  | cons x xs ih =>
      intro acc
      by_cases hx : p x <;>
        simp [List.foldl_cons, hx, ih, List.filter_cons, List.append_assoc]

/-- Shape of a successful `_prepare_default_handlers` run: the returned list is
the stable sort of the user handlers followed by the added defaults. -/
theorem prepareDefaultHandlers_ok (est : Estimator) (hasValData : Bool)
    (userHandlers added out : List Handler) (warn : Bool)
    (ha : addedDefaultHandlers est hasValData userHandlers = Except.ok added)
    (h : prepareDefaultHandlers est hasValData userHandlers =
      Except.ok (out, warn)) :
    out = sortByPriority (userHandlers ++ added) := by
  simp only [prepareDefaultHandlers, ha] at h
  split at h
  · split at h
    · injection h with h2
      exact (congrArg Prod.fst h2).symm
    · exact absurd h (by simp)
  · injection h with h2
    exact (congrArg Prod.fst h2).symm

/-- C5: the prepared handler list is sorted by non-decreasing effective priority
(a missing `priority` attribute counting as 0); it is a stable sort of the
registration order (user handlers in given order, then the added defaults):
filtering by any fixed priority value returns exactly the handlers of that
priority in registration order; `_categorize_handlers` produces the six
per-phase lists as order-preserving filters of the sorted list, each therefore
itself sorted. -/
theorem prepared_handlers_sorted_stable (est : Estimator) (hasValData : Bool)
    (userHandlers added out : List Handler) (warn : Bool)
    (ha : addedDefaultHandlers est hasValData userHandlers = Except.ok added)
    (h : prepareDefaultHandlers est hasValData userHandlers =
      Except.ok (out, warn)) :
    out.Pairwise (fun a b => effectivePriority a ≤ effectivePriority b)
    ∧ (∀ p : Int, out.filter (fun a => decide (effectivePriority a = p)) =
        (userHandlers ++ added).filter (fun a => decide (effectivePriority a = p)))
    ∧ categorizeHandlers out =
        (out.filter (fun a => a.hasTrainBegin),
         out.filter (fun a => a.hasEpochBegin),
         out.filter (fun a => a.hasBatchBegin),
         out.filter (fun a => a.hasBatchEnd),
         out.filter (fun a => a.hasEpochEnd),
         out.filter (fun a => a.hasTrainEnd))
    ∧ (∀ q : Handler → Bool, (out.filter q).Pairwise
        (fun a b => effectivePriority a ≤ effectivePriority b)) := by
  have hout := prepareDefaultHandlers_ok est hasValData userHandlers added out warn ha h
  subst hout
  refine ⟨sortByPriority_pairwise _, fun p => filter_sortByPriority _ p, ?_, ?_⟩
  · simp [categorizeHandlers, appendIf_eq_filter]
  · intro q
    exact List.Pairwise.sublist (List.filter_sublist _) (sortByPriority_pairwise _)

/-- Concrete estimator for the C5 witness. -/
def estC5 : Estimator :=
  { loss := { name := "l0", isClassification := false },
    trainMetrics := [], valMetrics := [],
    context := [Ctx.cpu 0], maxEpoch := none, maxBatch := none }

/-- A user-supplied custom handler with explicit priority 5. -/
def userHandlerC5 : Handler :=
  { isStoppingHandler := false, isMetricHandler := false,
    isValidationHandler := false, isLoggingHandler := false,
    priority := some 5,
    hasTrainBegin := true, hasEpochBegin := false, hasBatchBegin := false,
    hasBatchEnd := true, hasEpochEnd := false, hasTrainEnd := true,
    refTrainMetrics := [], refValMetrics := [],
    stopMaxEpoch := none, stopMaxBatch := none, boundValData := false, tag := 9 }

/-- The defaults added for `estC5` with no validation data. -/
def addedC5 : List Handler :=
  [mkStoppingHandler none none, mkMetricHandler [], mkLoggingHandler [] []]

/-- C5 witness: one user handler of priority 5 mixed with the three added
defaults of priority 0. -/
theorem prepared_handlers_sorted_stable_witness :
    (sortByPriority ([userHandlerC5] ++ addedC5)).Pairwise
        (fun a b => effectivePriority a ≤ effectivePriority b)
    ∧ (∀ p : Int, (sortByPriority ([userHandlerC5] ++ addedC5)).filter
          (fun a => decide (effectivePriority a = p)) =
        ([userHandlerC5] ++ addedC5).filter
          (fun a => decide (effectivePriority a = p)))
    ∧ categorizeHandlers (sortByPriority ([userHandlerC5] ++ addedC5)) =
        ((sortByPriority ([userHandlerC5] ++ addedC5)).filter
            (fun a => a.hasTrainBegin),
         (sortByPriority ([userHandlerC5] ++ addedC5)).filter
            (fun a => a.hasEpochBegin),
         (sortByPriority ([userHandlerC5] ++ addedC5)).filter
            (fun a => a.hasBatchBegin),
         (sortByPriority ([userHandlerC5] ++ addedC5)).filter
            (fun a => a.hasBatchEnd),
         (sortByPriority ([userHandlerC5] ++ addedC5)).filter
            (fun a => a.hasEpochEnd),
         (sortByPriority ([userHandlerC5] ++ addedC5)).filter
            (fun a => a.hasTrainEnd))
    ∧ (∀ q : Handler → Bool,
        ((sortByPriority ([userHandlerC5] ++ addedC5)).filter q).Pairwise
          (fun a b => effectivePriority a ≤ effectivePriority b)) :=
  prepared_handlers_sorted_stable estC5 false [userHandlerC5] addedC5
    (sortByPriority ([userHandlerC5] ++ addedC5)) true rfl rfl

/-! Trace-structure lemmas for the `fit` dispatcher. -/

theorem batchOf_epochOf {ev : Ev} {e b : Nat} (h : ev.batchOf = some (e, b)) :
    ev.epochOf = some e := by
  cases ev <;> simp [Ev.batchOf, Ev.epochOf] at h ⊢ <;> omega

theorem mem_batchPhaseEvs_batchOf {env : LoopEnv} {e b : Nat} {ev : Ev}
    (h : ev ∈ batchPhaseEvs env e b) : ev.batchOf = some (e, b) := by
  simp only [batchPhaseEvs, List.mem_append, List.mem_map, List.mem_range,
    List.mem_singleton] at h
  rcases h with ⟨⟨x, -, rfl⟩ | rfl⟩ | ⟨x, -, rfl⟩ <;> rfl

theorem batchEnd_mem_batchPhaseEvs {env : LoopEnv} {e b e2 b2 hi : Nat}
    (hm : Ev.batchEnd e2 b2 hi ∈ batchPhaseEvs env e b) :
    e2 = e ∧ b2 = b ∧ hi < env.nBatchEnd := by
  simp only [batchPhaseEvs, List.mem_append, List.mem_map, List.mem_range,
    List.mem_singleton] at hm
  rcases hm with ⟨⟨x, -, hx⟩ | hx⟩ | ⟨x, hx1, hx2⟩
  · exact absurd hx (by simp)
  · exact absurd hx (by simp)
  · obtain ⟨rfl, rfl, rfl⟩ : e = e2 ∧ b = b2 ∧ x = hi := by
      have := hx2
      injection this with h1 h2 h3
      exact ⟨h1, h2, h3⟩
    exact ⟨rfl, rfl, hx1⟩

theorem mem_runBatchesFrom {env : LoopEnv} {e : Nat} :
    ∀ {rem b : Nat} {ev : Ev}, ev ∈ runBatchesFrom env e b rem →
      ∃ b2, b ≤ b2 ∧ b2 < b + rem ∧ ev ∈ batchPhaseEvs env e b2
        ∧ ∀ c, b ≤ c → c < b2 → batchStop env e c = false := by
  intro rem
  induction rem with
  | zero =>
      intro b ev h
      simp [runBatchesFrom] at h
  | succ n ih =>
      intro b ev h
      rw [runBatchesFrom] at h
      by_cases hs : batchStop env e b = true
      · rw [if_pos hs] at h
        exact ⟨b, le_refl b, by omega, h, fun c hc1 hc2 => absurd hc2 (by omega)⟩
      · rw [if_neg hs] at h
        rcases List.mem_append.mp h with h | h
        · exact ⟨b, le_refl b, by omega, h, fun c hc1 hc2 => absurd hc2 (by omega)⟩
        · obtain ⟨b2, hb1, hb2, hmem, hstop⟩ := ih h
          refine ⟨b2, by omega, by omega, hmem, ?_⟩
          intro c hc1 hc2
          rcases Nat.eq_or_lt_of_le hc1 with rfl | hlt
          · simpa using hs
          · exact hstop c (by omega) hc2

theorem mem_epochEvs_epochOf {env : LoopEnv} {e : Nat} {ev : Ev}
    (h : ev ∈ epochEvs env e) : ev.epochOf = some e := by
  simp only [epochEvs, List.mem_append] at h
  rcases h with (h | h) | h
  · obtain ⟨x, -, rfl⟩ := List.mem_map.mp h
    rfl
  · obtain ⟨b2, -, -, hmem, -⟩ := mem_runBatchesFrom h
    exact batchOf_epochOf (mem_batchPhaseEvs_batchOf hmem)
  · obtain ⟨x, -, rfl⟩ := List.mem_map.mp h
    rfl

theorem mem_epochEvs_batchOf {env : LoopEnv} {e e2 b2 : Nat} {ev : Ev}
    (hm : ev ∈ epochEvs env e) (hb : ev.batchOf = some (e2, b2)) :
    e2 = e ∧ b2 < env.numBatches ∧ ∀ c, c < b2 → batchStop env e c = false := by
  simp only [epochEvs, List.mem_append] at hm
  rcases hm with (hm | hm) | hm
  · obtain ⟨x, -, rfl⟩ := List.mem_map.mp hm
    exact absurd hb (by simp [Ev.batchOf])
  · obtain ⟨b3, hb1, hb2, hmem, hstop⟩ := mem_runBatchesFrom hm
    have hbo := mem_batchPhaseEvs_batchOf hmem
    rw [hb] at hbo
    injection hbo with hbo
    obtain ⟨rfl, rfl⟩ : e2 = e ∧ b2 = b3 := by
      have h1 := congrArg Prod.fst hbo
      have h2 := congrArg Prod.snd hbo
      simp at h1 h2
      exact ⟨h1, h2⟩
    exact ⟨rfl, by omega, fun c hc => hstop c (by omega) hc⟩
  · obtain ⟨x, -, rfl⟩ := List.mem_map.mp hm
    exact absurd hb (by simp [Ev.batchOf])

theorem epochEnd_mem_epochEvs {env : LoopEnv} {e h2 : Nat}
    (hlt : h2 < env.nEpochEnd) : Ev.epochEnd e h2 ∈ epochEvs env e := by
  simp only [epochEvs, List.mem_append]
  exact Or.inr (List.mem_map.mpr ⟨h2, List.mem_range.mpr hlt, rfl⟩)

theorem epochEnd_mem_epochEvs_inv {env : LoopEnv} {e e2 hi : Nat}
    (hm : Ev.epochEnd e2 hi ∈ epochEvs env e) :
    e2 = e ∧ hi < env.nEpochEnd := by
  simp only [epochEvs, List.mem_append] at hm
  rcases hm with (hm | hm) | hm
  · obtain ⟨x, -, hx⟩ := List.mem_map.mp hm
    exact absurd hx (by simp)
  · obtain ⟨b2, -, -, hmem, -⟩ := mem_runBatchesFrom hm
    exact absurd (mem_batchPhaseEvs_batchOf hmem) (by simp [Ev.batchOf])
  · obtain ⟨x, hx1, hx2⟩ := List.mem_map.mp hm
    injection hx2 with h1 h3
    exact ⟨h1.symm, h3 ▸ List.mem_range.mp hx1⟩

theorem runEpochs_eq_some {env : LoopEnv} :
    ∀ {fuel e0 : Nat} {T : List Ev}, runEpochs env e0 fuel = some T →
      ∃ E, e0 ≤ E ∧ (∀ d, e0 ≤ d → d < E → epochStop env d = false)
        ∧ epochStop env E = true
        ∧ ∀ ev : Ev, ev ∈ T ↔ ∃ e2, e0 ≤ e2 ∧ e2 ≤ E ∧ ev ∈ epochEvs env e2 := by
  intro fuel
  induction fuel with
  | zero =>
      intro e0 T h
      simp [runEpochs] at h
  | succ n ih =>
      intro e0 T h
      rw [runEpochs] at h
      by_cases hs : epochStop env e0 = true
      · rw [if_pos hs] at h
        injection h with h
        subst h
        refine ⟨e0, le_refl _, fun d hd1 hd2 => absurd hd1 (by omega), hs, ?_⟩
        intro ev
        constructor
        · intro hm
          exact ⟨e0, le_refl _, le_refl _, hm⟩
        · rintro ⟨e2, h1, h2, hm⟩
          have he : e2 = e0 := by omega
          subst he
          exact hm
      · rw [if_neg hs] at h
        cases hr : runEpochs env (e0 + 1) n with
        | none =>
            rw [hr] at h
            simp at h
        | some T2 =>
            rw [hr] at h
            injection h with h
            subst h
            obtain ⟨E, hE1, hE2, hE3, hmem⟩ := ih hr
            refine ⟨E, by omega, ?_, hE3, ?_⟩
            · intro d hd1 hd2
              rcases Nat.eq_or_lt_of_le hd1 with rfl | hlt
              · simpa using hs
              · exact hE2 d (by omega) hd2
            · intro ev
              rw [List.mem_append]
              constructor
              · rintro (hm | hm)
                · exact ⟨e0, le_refl _, by omega, hm⟩
                · obtain ⟨e2, h1, h2, hm2⟩ := (hmem ev).mp hm
                  exact ⟨e2, by omega, h2, hm2⟩
              · rintro ⟨e2, h1, h2, hm2⟩
                rcases Nat.eq_or_lt_of_le h1 with rfl | hlt
                · exact Or.inl hm2
                · exact Or.inr ((hmem ev).mpr ⟨e2, by omega, h2, hm2⟩)

theorem fitModel_ok_trace {env : LoopEnv} {epochs batches : Option Int}
    {counters : Option Int × Option Int} {fuel : Nat}
    {st : Option Int × Option Int} {T : List Ev}
    (h : fitModel env true epochs batches counters fuel =
      (st, Except.ok (some T))) :
    ∃ L, runEpochs env 0 fuel = some L
      ∧ T = (List.range env.nTrainBegin).map Ev.trainBegin ++ L
          ++ (List.range env.nTrainEnd).map Ev.trainEnd := by
  rw [fitModel, if_neg (by simp)] at h
  by_cases hb : (pyFalsy epochs == pyFalsy batches) = true
  · rw [if_pos hb] at h
    exact absurd (congrArg Prod.snd h) (by simp)
  · rw [if_neg hb] at h
    have h2 := congrArg Prod.snd h
    simp only at h2
    injection h2 with h2
    cases hr : runEpochs env 0 fuel with
    | none =>
        rw [hr] at h2
        simp at h2
    | some L =>
        rw [hr] at h2
        simp only [Option.map_some'] at h2
        injection h2 with h2
        exact ⟨L, rfl, h2.symm⟩

theorem batchEnd_mem_epochEvs_inv {env : LoopEnv} {e e2 b2 hi : Nat}
    (hm : Ev.batchEnd e2 b2 hi ∈ epochEvs env e) :
    e2 = e ∧ hi < env.nBatchEnd := by
  simp only [epochEvs, List.mem_append] at hm
  rcases hm with (hm | hm) | hm
  · obtain ⟨x, -, hx⟩ := List.mem_map.mp hm
    exact absurd hx (by simp)
  · obtain ⟨b3, -, -, hmem, -⟩ := mem_runBatchesFrom hm
    obtain ⟨h1, h2, h3⟩ := batchEnd_mem_batchPhaseEvs hmem
    exact ⟨h1, h3⟩
  · obtain ⟨x, -, hx⟩ := List.mem_map.mp hm
    exact absurd hx (by simp)

/-- C2: in every completed `fit` run, when some batch-end handler returned a
true stop signal for batch `b` of epoch `e`, no batch-begin, `fit_batch` or
batch-end action of any later batch of epoch `e` occurs, while every epoch-end
handler is still invoked for epoch `e`; and when some epoch-end handler of
epoch `e` returned a true stop signal, no action of any later epoch occurs and
the train-end actions of the trace are exactly one invocation per train-end
handler, in list order. -/
theorem fit_stop_signal_semantics (env : LoopEnv) (epochs batches : Option Int)
    (counters : Option Int × Option Int) (fuel : Nat)
    (st : Option Int × Option Int) (T : List Ev)
    (h : fitModel env true epochs batches counters fuel =
      (st, Except.ok (some T))) :
    (∀ e b hi, Ev.batchEnd e b hi ∈ T → env.batchEndSig e b hi = true →
      T.all (fun ev => !isBatchEvAfter e b ev) = true
      ∧ ∀ h2, h2 < env.nEpochEnd → Ev.epochEnd e h2 ∈ T)
    ∧ (∀ e hi, Ev.epochEnd e hi ∈ T → env.epochEndSig e hi = true →
      T.all (fun ev => !isEpochEvAfter e ev) = true
      ∧ T.filter isTrainEndEv = (List.range env.nTrainEnd).map Ev.trainEnd) := by
  obtain ⟨L, hr, rfl⟩ := fitModel_ok_trace h
  obtain ⟨E, -, hElt, hEstop, hmem⟩ := runEpochs_eq_some hr
  constructor
  · intro e b hi hmemT hsig
    have hL : Ev.batchEnd e b hi ∈ L := by
      rcases List.mem_append.mp hmemT with h1 | h1
      · rcases List.mem_append.mp h1 with h1 | h1
        · obtain ⟨x, -, hx⟩ := List.mem_map.mp h1
          exact absurd hx (by simp)
        · exact h1
      · obtain ⟨x, -, hx⟩ := List.mem_map.mp h1
        exact absurd hx (by simp)
    obtain ⟨e2, -, heE, hmL⟩ := (hmem _).mp hL
    obtain ⟨rfl, hhi⟩ := batchEnd_mem_epochEvs_inv hmL
    have hstopb : batchStop env e b = true := by
      simp only [batchStop, List.any_eq_true, List.mem_map, List.mem_range, id]
      exact ⟨env.batchEndSig e b hi, ⟨hi, hhi, rfl⟩, hsig⟩
    refine ⟨?_, ?_⟩
    · rw [List.all_eq_true]
      intro ev hmev
      rcases List.mem_append.mp hmev with h1 | h1
      · rcases List.mem_append.mp h1 with h1 | h1
        · obtain ⟨x, -, rfl⟩ := List.mem_map.mp h1
          rfl
        · obtain ⟨e3, -, he3, hm3⟩ := (hmem ev).mp h1
          cases hba : ev.batchOf with
          | none => simp [isBatchEvAfter, hba]
          | some p =>
              obtain ⟨p1, p2⟩ := p
              obtain ⟨rfl, -, hnos⟩ := mem_epochEvs_batchOf hm3 hba
              simp only [isBatchEvAfter, hba]
              by_cases hee : p1 = e
              · subst hee
                by_cases hbb : b < p2
                · exact absurd (hnos b hbb) (by simp [hstopb])
                · simp [hbb]
              · simp [hee]
      · obtain ⟨x, -, rfl⟩ := List.mem_map.mp h1
        rfl
    · intro h2 hlt2
      have hmem2 : Ev.epochEnd e h2 ∈ L :=
        (hmem _).mpr ⟨e, Nat.zero_le _, heE, epochEnd_mem_epochEvs hlt2⟩
      exact List.mem_append.mpr (Or.inl (List.mem_append.mpr (Or.inr hmem2)))
  · intro e hi hmemT hsig
    have hL : Ev.epochEnd e hi ∈ L := by
      rcases List.mem_append.mp hmemT with h1 | h1
      · rcases List.mem_append.mp h1 with h1 | h1
        · obtain ⟨x, -, hx⟩ := List.mem_map.mp h1
          exact absurd hx (by simp)
        · exact h1
      · obtain ⟨x, -, hx⟩ := List.mem_map.mp h1
        exact absurd hx (by simp)
    obtain ⟨e2, -, heE, hmL⟩ := (hmem _).mp hL
    obtain ⟨rfl, hhi⟩ := epochEnd_mem_epochEvs_inv hmL
    have hstope : epochStop env e = true := by
      simp only [epochStop, List.any_eq_true, List.mem_map, List.mem_range, id]
      exact ⟨env.epochEndSig e hi, ⟨hi, hhi, rfl⟩, hsig⟩
    have heE2 : e = E := by
      rcases Nat.eq_or_lt_of_le heE with h9 | hlt
      · exact h9
      · exact absurd (hElt e (Nat.zero_le _) hlt) (by simp [hstope])
    refine ⟨?_, ?_⟩
    · rw [List.all_eq_true]
      intro ev hmev
      rcases List.mem_append.mp hmev with h1 | h1
      · rcases List.mem_append.mp h1 with h1 | h1
        · obtain ⟨x, -, rfl⟩ := List.mem_map.mp h1
          rfl
        · obtain ⟨e3, -, he3, hm3⟩ := (hmem ev).mp h1
          have heo := mem_epochEvs_epochOf hm3
          simp only [isEpochEvAfter, heo]
          have hno : ¬ e < e3 := by omega
          simp [hno]
      · obtain ⟨x, -, rfl⟩ := List.mem_map.mp h1
        rfl
    · rw [List.filter_append, List.filter_append]
      have htb : ((List.range env.nTrainBegin).map Ev.trainBegin).filter
          isTrainEndEv = [] := by
        rw [List.filter_eq_nil_iff]
        intro a ha
        obtain ⟨x, -, rfl⟩ := List.mem_map.mp ha
        simp [isTrainEndEv]
      have hLf : L.filter isTrainEndEv = [] := by
        rw [List.filter_eq_nil_iff]
        intro a ha
        obtain ⟨e3, -, -, hm3⟩ := (hmem a).mp ha
        have heo := mem_epochEvs_epochOf hm3
        cases a <;> simp_all [isTrainEndEv, Ev.epochOf]
      have hte : ((List.range env.nTrainEnd).map Ev.trainEnd).filter
          isTrainEndEv = (List.range env.nTrainEnd).map Ev.trainEnd := by
        rw [List.filter_eq_self]
        intro a ha
        obtain ⟨x, -, rfl⟩ := List.mem_map.mp ha
        rfl
      rw [htb, hLf, hte]
      simp

/-- Concrete dispatcher environment for the C2 witness: two batch-end handlers,
the second of which stops at batch 1 of epoch 0, and one epoch-end handler that
stops at epoch 1. -/
def envC2 : LoopEnv :=
  { nTrainBegin := 1, nEpochBegin := 1, nBatchBegin := 1,
    nBatchEnd := 2, nEpochEnd := 1, nTrainEnd := 2, numBatches := 3,
    batchEndSig := fun e b hh => decide (e = 0 ∧ b = 1 ∧ hh = 1),
    epochEndSig := fun e _ => decide (e = 1) }

/-- The trace of the C2 witness run. -/
def traceC2 : List Ev :=
  (List.range 1).map Ev.trainBegin ++ (epochEvs envC2 0 ++ epochEvs envC2 1)
    ++ (List.range 2).map Ev.trainEnd

/-- C2 witness: the stop at batch 1 of epoch 0 and the stop at epoch 1 of the
concrete run. -/
theorem fit_stop_signal_semantics_witness :
    (traceC2.all (fun ev => !isBatchEvAfter 0 1 ev) = true
      ∧ ∀ h2, h2 < envC2.nEpochEnd → Ev.epochEnd 0 h2 ∈ traceC2)
    ∧ (traceC2.all (fun ev => !isEpochEvAfter 1 ev) = true
      ∧ traceC2.filter isTrainEndEv =
          (List.range envC2.nTrainEnd).map Ev.trainEnd) :=
  ⟨(fit_stop_signal_semantics envC2 (some 1) none (none, none) 5
      (some 1, none) traceC2 rfl).1 0 1 1 (by decide) (by decide),
   (fit_stop_signal_semantics envC2 (some 1) none (none, none) 5
      (some 1, none) traceC2 rfl).2 1 0 (by decide) (by decide)⟩

end GluonEstimator
